import Mathlib

/-!
# Verification of the VITShare peer-discovery and file-transfer core

This file is a shallow embedding, in Lean 4, of the backend logic of
`FileShare11.py` (class `P2PFileSharerBackend`): the peer registry and its
discovery/eviction operations, the inbound file-transfer connection handler,
the outbound send operation, and the QR pairing connection handler.

Modelling conventions:
* Bytes are `Nat`s; a byte string is a `List Nat`; the newline byte is `10`.
* A TCP connection's inbound data is a list of chunks (`List Bytes`); each
  `recv(n)` call returns up to `n` bytes from the front of the stream, and an
  empty result means the connection is closed (end of the list, or an empty
  chunk).  Quantifying over all chunkings models all delivery schedules.
* JSON values are modelled by the inductive `JVal`; `json.loads` composed with
  UTF-8 decoding is an arbitrary decoder parameter `jdec : Bytes → Option JVal`
  (`none` = decode/parse failure), since the JSON library is external to the
  program under verification.  Python `None` is modelled by `JVal.jnull`.
* Python dictionary keys must be hashable, so only scalar JSON values can key
  the peer registry (`JKey`); keying with a list/object raises `TypeError`,
  which every call site catches with a generic `except`, leaving the registry
  unchanged.  Scalar equality is modelled structurally (the Python quirk
  `1 == True` is not modelled; no claim depends on it).
* `time.time()` results are modelled as integers supplied as parameters.
* The peer registry `self.peers` is an association list keyed by the nickname
  value; `self.active_transfers` is likewise keyed by the transfer id.
* GUI callbacks (progress, logging) are pure observations and are not modelled;
  the accept/reject decision callback is modelled by a boolean parameter.
-/

namespace VITShare

/-- A byte string: each element is one byte. -/
abbrev Bytes := List Nat

/-- `BROADCAST_MAGIC` from the configuration section. -/
def BROADCAST_MAGIC : String := "c0d3-p2p-share-v1"

/-- `PEER_TIMEOUT = 30` from the configuration section. -/
def PEER_TIMEOUT : Int := 30

/-- `BUFFER_SIZE = 16 * 1048576` from the configuration section. -/
def BUFFER_SIZE : Int := 16 * 1048576

/-- The downloads directory path (`DOWNLOAD_DIR`), treated as an opaque root. -/
def DOWNLOAD_DIR : String := "P2P File Sharer Data/downloads"

/-- The sharable-items directory path (`SHARE_DIR`), treated as an opaque root. -/
def SHARE_DIR : String := "P2P File Sharer Data/sharable"

/-- A JSON value, as produced by `json.loads`.  `jnull` also stands for the
Python `None` returned by `dict.get` for a missing key. -/
inductive JVal where
  | jnull
  | jbool (b : Bool)
  | jnum (n : Int)
  | jstr (s : String)
  | jarr (xs : List JVal)
  | jobj (fields : List (String × JVal))

/-- A hashable (scalar) JSON value, usable as a Python dictionary key. -/
inductive JKey where
  | knull
  | kbool (b : Bool)
  | knum (n : Int)
  | kstr (s : String)
deriving DecidableEq, Repr

/-- Conversion of a JSON value to a dictionary key: `none` when the value is
unhashable, in which case using it as a key raises `TypeError`. -/
def toKey : JVal → Option JKey
  | .jnull => some .knull
  | .jbool b => some (.kbool b)
  | .jnum n => some (.knum n)
  | .jstr s => some (.kstr s)
  | .jarr _ => none
  | .jobj _ => none

/-- Python truthiness (`if x:`) of a JSON value. -/
def truthy : JVal → Bool
  | .jnull => false
  | .jbool b => b
  | .jnum n => n != 0
  | .jstr s => s != ""
  | .jarr xs => !xs.isEmpty
  | .jobj fs => !fs.isEmpty

/-- Python equality of a JSON value with a string literal (`v == "s"`). -/
def JVal.eqStr : JVal → String → Bool
  | .jstr t, s => t == s
  | _, _ => false

/-- `dict.get k` on a parsed JSON object: the value of the first field named
`k`, if any (objects produced by the decoder have unique keys). -/
def jget (fields : List (String × JVal)) (k : String) : Option JVal :=
  (fields.find? (fun p => p.1 == k)).map (fun p => p.2)

/-- Python equality of a `dict.get` result with a string literal
(`d.get(k) == "s"`; `None == "s"` is false). -/
def optEqStr (o : Option JVal) (s : String) : Bool :=
  (o.getD .jnull).eqStr s

/-- One peer registry entry: the value stored in `self.peers[nickname]`. -/
structure PeerInfo where
  ip : JVal
  last_seen : Int
  device_type : JVal
  qr_connected : Bool

/-- The peer registry `self.peers`: an association list keyed by nickname. -/
abbrev Registry := List (JKey × PeerInfo)

/-- Dictionary lookup `d[k]` / `d.get(k)` on an association list. -/
def getKey {α β : Type} [DecidableEq α] : List (α × β) → α → Option β
  | [], _ => none
  | (k0, v0) :: rest, k => if k0 = k then some v0 else getKey rest k

/-- Dictionary assignment `d[k] = v` on an association list: replaces the
first entry with key `k` in place, or appends a new entry. -/
def setKey {α β : Type} [DecidableEq α] : List (α × β) → α → β → List (α × β)
  | [], k, v => [(k, v)]
  | (k0, v0) :: rest, k, v =>
      if k0 = k then (k, v) :: rest else (k0, v0) :: setKey rest k v

/-- Dictionary deletion `del d[k]` on an association list. -/
def eraseKey {α β : Type} [DecidableEq α] (l : List (α × β)) (k : α) :
    List (α × β) :=
  l.filter (fun p => decide (p.1 ≠ k))

/-- Whether the registry currently records `nm` as a QR-connected (pinned)
peer: `self.peers.get(nm, \x7b\x7d).get('qr_connected', False)`. -/
def isPinned (peers : Registry) (nm : JKey) : Bool :=
  ((getKey peers nm).map PeerInfo.qr_connected).getD false

/-- The registry update performed by `listen_for_peers` (lines 144-149) for a
discovery datagram: overwrite ip / last-seen / device-class, preserving any
existing `qr_connected` flag (`False` for a previously unknown peer). -/
def upsert_discovery (peers : Registry) (peer_nickname : JKey)
    (peer_ip device_type : JVal) (now : Int) : Registry :=
  setKey peers peer_nickname
    { ip := peer_ip, last_seen := now, device_type := device_type,
      qr_connected := isPinned peers peer_nickname }

/-- Processing of one received UDP datagram by `listen_for_peers`
(lines 133-151).  `datagram = none` models a payload that fails UTF-8
decoding or JSON parsing (`json.JSONDecodeError` → `continue`).  A non-object
JSON value raises `AttributeError` at `message.get`, and an unhashable
nickname raises `TypeError` at the dictionary update; both are swallowed by
the generic `except`, leaving the registry unchanged. -/
def listen_for_peers_step (self_nickname : String) (now : Int) (peers : Registry)
    (datagram : Option JVal) : Registry :=
  match datagram with
  | none => peers
  | some (.jobj fields) =>
      if optEqStr (jget fields "magic") BROADCAST_MAGIC then
        let peer_nickname := (jget fields "nickname").getD .jnull
        let peer_ip := (jget fields "ip").getD .jnull
        let device_type := (jget fields "device_type").getD (.jstr "unknown")
        if !peer_nickname.eqStr self_nickname then
          match toKey peer_nickname with
          | some k => upsert_discovery peers k peer_ip device_type now
          | none => peers
        else peers
      else peers
  | some _ => peers

/-- One sweep of `cleanup_stale_peers` (lines 168-177): collect the nicknames
of entries whose last-seen timestamp is more than `timeout` old and that are
not QR-connected, then delete each collected nickname. -/
def cleanup_stale_peers (now timeout : Int) (peers : Registry) : Registry :=
  let stale :=
    (peers.filter (fun p =>
      decide (timeout < now - p.2.last_seen) && !p.2.qr_connected)).map Prod.fst
  peers.filter (fun p => decide (p.1 ∉ stale))

/-! ## Byte streams and socket reads -/

/-- Total number of bytes in a chunk stream. -/
def totalLen (chunks : List Bytes) : Nat :=
  (chunks.map List.length).sum

/-- `bs.split(b'\n', 1)` when a newline is present: the bytes before the
first newline and the bytes after it. -/
def splitFirstNL : Bytes → Option (Bytes × Bytes)
  | [] => none
  | b :: bs =>
      if b = 10 then some ([], bs)
      else (splitFirstNL bs).map (fun p => (b :: p.1, p.2))

/-- Result of the metadata-accumulation loop of `handle_item_receive`
(lines 218-228): either the connection closed (`recv` returned empty) before
a newline arrived, leaving the accumulated bytes, or a newline arrived and
the buffer was split into header bytes, trailing bytes of the same reads
(`remaining_data`), and the unread remainder of the stream. -/
inductive MetaRead where
  | closed (acc : Bytes)
  | header (hdr rem : Bytes) (rest : List Bytes)
deriving DecidableEq, Repr

/-- The metadata-accumulation loop of `handle_item_receive` (lines 218-228):
`chunk = conn.recv(1024)`; break on empty; append to the buffer; if the
buffer contains a newline, split at the first one and stop.  A `recv(1024)`
returns at most 1024 bytes; an oversized arrival chunk is consumed in
1024-byte slices. -/
def recvMetaLoop (chunks : List Bytes) (acc : Bytes) : MetaRead :=
  match chunks with
  | [] => .closed acc
  | c :: rest =>
      if c = [] then .closed acc
      else
        let chunk := c.take 1024
        let rest' := if c.length ≤ 1024 then rest else c.drop 1024 :: rest
        let buf := acc ++ chunk
        match splitFirstNL buf with
        | some (hdr, rem) => .header hdr rem rest'
        | none => recvMetaLoop rest' buf
termination_by totalLen chunks + chunks.length
decreasing_by
  simp only [totalLen, List.map_cons, List.sum_cons]
  split <;> simp only [totalLen, List.map_cons, List.sum_cons, List.length_cons,
    List.length_drop] <;> omega

/-- The payload loop of `handle_item_receive` (lines 295-301):
`bytes_to_read = min(BUFFER_SIZE, filesize - received_bytes)`;
`bytes_read = conn.recv(bytes_to_read)`; break on empty; append to the file
and count.  Returns the bytes written by the loop and the final
`received_bytes` counter (which starts at the length of `remaining_data`). -/
def recvPayload (filesize : Int) (chunks : List Bytes) (received : Nat) :
    Bytes × Nat :=
  if h : (received : Int) < filesize then
    let bound := (min BUFFER_SIZE (filesize - received)).toNat
    match chunks with
    | [] => ([], received)
    | c :: rest =>
        let bytes_read := c.take bound
        if hb : bytes_read = [] then ([], received)
        else
          let rest' := if c.length ≤ bound then rest else c.drop bound :: rest
          let pr := recvPayload filesize rest' (received + bytes_read.length)
          (bytes_read ++ pr.1, pr.2)
  else ([], received)
termination_by (filesize - received).toNat
decreasing_by
  have hlen : 0 < (List.take (BUFFER_SIZE ⊓ (filesize - (received : Int))).toNat c).length :=
    List.length_pos.mpr hb
  omega

/-- `os.path.basename` (POSIX): the part of the path after the last slash. -/
def basename (s : String) : String :=
  ((s.splitOn "/").getLast?).getD ""

/-! ## The inbound transfer handler (`handle_item_receive`, lines 209-338) -/

/-- A control message written by the receiver on the transfer socket. -/
inductive Reply where
  | accept
  | reject
  | qrHandshakeResponse (nickname ip : String)
deriving DecidableEq, Repr

/-- How one inbound connection ended. -/
inductive ROutcome where
  /-- Connection closed with no metadata bytes (line 230). -/
  | noMetadata
  /-- Header bytes failed to parse as JSON (line 237). -/
  | invalidJson
  /-- Header was a `qr_handshake` message (lines 241-264). -/
  | qrHandshake
  /-- Header lacked `filename` or `filesize` (line 266). -/
  | missingFields
  /-- User rejected the transfer; `REJECT` sent (line 276). -/
  | rejected
  /-- `received_bytes == filesize`: transfer finished (lines 312-323). -/
  | completed
  /-- An exception reached the outer handler (lines 327-333): transfer
  incomplete (`IOError`), a bad metadata value, or an unbound
  `remaining_data`. -/
  | failed
deriving DecidableEq, Repr

/-- Observable effects of the body of `handle_item_receive` (the code inside
`with conn:`, lines 216-325, plus the `except` clean-up of lines 327-333). -/
structure BodyResult where
  /-- Control messages sent on the socket, in order. -/
  sent : List Reply
  /-- Final value of the `filepath` local (`""` if never assigned). -/
  dest : String
  /-- Contents of the file surviving at `dest` after the handler finishes
  (`none`: never created, deleted by the `except` clean-up, or removed after
  a directory archive was unpacked). -/
  file : Option Bytes
  /-- All bytes written to the destination file, before any deletion. -/
  written : Bytes
  /-- Final value of the `received_bytes` counter. -/
  received : Nat
  /-- The peer registry after the handler (changed only by the
  `qr_handshake` branch). -/
  registry : Registry
  outcome : ROutcome

/-- The transfer-request part of `handle_item_receive` (lines 241-333), run
after the metadata bytes have been accumulated.  `payloadSrc` is
`some (remaining_data, rest)` when a newline terminated the header
(`remaining_data` are the trailing bytes of the same reads, `rest` the unread
stream); it is `none` when the loop ended by connection close, in which case
the local `remaining_data` was never assigned and line 291 raises
`UnboundLocalError`.  `accepted` is the decision produced by the
`transfer_request_callback` rendezvous (lines 270-273). -/
def processMeta (jdec : Bytes → Option JVal) (self_nickname self_ip addr_ip : String)
    (now : Int) (accepted : Bool) (peers : Registry) (metadata_bytes : Bytes)
    (payloadSrc : Option (Bytes × List Bytes)) : BodyResult :=
  let base : BodyResult :=
    { sent := [], dest := "", file := none, written := [], received := 0,
      registry := peers, outcome := .failed }
  match jdec metadata_bytes with
  | none => { base with outcome := .invalidJson }
  | some (.jobj fields) =>
      if optEqStr (jget fields "type") "qr_handshake" then
        -- QR handshake branch (lines 241-264)
        let peer_nickname := (jget fields "nickname").getD .jnull
        let device_type := (jget fields "device_type").getD (.jstr "android")
        if truthy peer_nickname then
          match toKey peer_nickname with
          | some k =>
              { base with
                registry := setKey peers k
                  { ip := .jstr addr_ip
                    last_seen := now + 300
                    device_type := device_type
                    qr_connected := true }
                sent := [.qrHandshakeResponse self_nickname self_ip]
                outcome := .qrHandshake }
          | none =>
              -- unhashable nickname: TypeError at the dict update, caught at
              -- line 327; no response is sent (line 263 is not reached)
              { base with outcome := .failed }
        else { base with outcome := .qrHandshake }
      else
        match jget fields "filename", jget fields "filesize" with
        | some fnv, some fsv =>
            if accepted then
              match fnv with
              | .jstr fn =>
                  let filename := basename fn
                  let filepath := DOWNLOAD_DIR ++ "/" ++ filename
                  match fsv with
                  | .jnum filesize =>
                      match payloadSrc with
                      | none =>
                          -- `remaining_data` unbound: UnboundLocalError after
                          -- the file is created; the except clean-up deletes it
                          { base with
                            sent := [.accept]
                            dest := filepath
                            outcome := .failed }
                      | some (rem, rest) =>
                          let pr := recvPayload filesize rest rem.length
                          let content := rem ++ pr.1
                          let item_type := (jget fields "type").getD (.jstr "file")
                          if (pr.2 : Int) = filesize then
                            if item_type.eqStr "directory" then
                              -- archive unpacked (externally) and then removed
                              { base with
                                sent := [.accept]
                                dest := filepath
                                file := none
                                written := content
                                received := pr.2
                                outcome := .completed }
                            else
                              { base with
                                sent := [.accept]
                                dest := filepath
                                file := some content
                                written := content
                                received := pr.2
                                outcome := .completed }
                          else
                            -- IOError "File transfer incomplete."; the except
                            -- clean-up deletes the partial file
                            { base with
                              sent := [.accept]
                              dest := filepath
                              file := none
                              written := content
                              received := pr.2
                              outcome := .failed }
                  | _ =>
                      -- non-numeric filesize: TypeError at the loop guard,
                      -- after `remaining_data` was written; file deleted
                      { base with
                        sent := [.accept]
                        dest := filepath
                        written := (payloadSrc.map Prod.fst).getD []
                        received := ((payloadSrc.map Prod.fst).getD []).length
                        outcome := .failed }
              | _ =>
                  -- non-string filename: TypeError inside os.path.basename,
                  -- before `filepath` is assigned; nothing to delete
                  { base with sent := [.accept], outcome := .failed }
            else { base with sent := [.reject], outcome := .rejected }
        | _, _ => { base with outcome := .missingFields }
  | some _ =>
      -- non-object JSON metadata: AttributeError at `metadata.get`, caught
      -- at line 327; nothing was created
      { base with outcome := .failed }

/-- The body of `handle_item_receive`: accumulate the metadata line
(lines 218-228), return on empty metadata (line 230), then process it. -/
def receiveBody (jdec : Bytes → Option JVal) (self_nickname self_ip addr_ip : String)
    (now : Int) (accepted : Bool) (peers : Registry) (chunks : List Bytes) :
    BodyResult :=
  match recvMetaLoop chunks [] with
  | .closed [] =>
      { sent := []
        dest := ""
        file := none
        written := []
        received := 0
        registry := peers
        outcome := .noMetadata }
  | .closed acc =>
      processMeta jdec self_nickname self_ip addr_ip now accepted peers acc none
  | .header hdr rem rest =>
      processMeta jdec self_nickname self_ip addr_ip now accepted peers hdr
        (some (rem, rest))

/-- One entry of the `self.active_transfers` table (the socket handle is not
modelled). -/
structure TransferEntry where
  cancel : Bool
deriving DecidableEq, Repr

/-- The `self.active_transfers` table, keyed by generated transfer id. -/
abbrev TransferTable := List (String × TransferEntry)

/-- Full result of `handle_item_receive`, including the ActiveTransfer
bookkeeping. -/
structure ReceiveResult extends BodyResult where
  /-- The ActiveTransfer table in force while the connection is serviced
  (after the line 213-214 registration, before the `finally`). -/
  duringTable : TransferTable
  /-- The ActiveTransfer table after the `finally` clause (lines 334-337). -/
  transfers : TransferTable

/-- `handle_item_receive` (lines 209-338): register the generated transfer id
in the ActiveTransfer table, run the connection body (which never touches the
table), and in `finally` remove the entry again.  `transfer_id` models the
generated `str(uuid.uuid4())`. -/
def handle_item_receive (jdec : Bytes → Option JVal)
    (self_nickname self_ip addr_ip : String) (now : Int) (accepted : Bool)
    (peers : Registry) (transfers : TransferTable) (transfer_id : String)
    (chunks : List Bytes) : ReceiveResult :=
  let registered := setKey transfers transfer_id { cancel := false }
  let body := receiveBody jdec self_nickname self_ip addr_ip now accepted peers chunks
  { body with
    duringTable := registered
    transfers := eraseKey registered transfer_id }

/-! ## The outbound send operation (`send_item`, lines 340-416) -/

/-- ASCII encoding of a string, used for control-token comparisons. -/
def asciiBytes (s : String) : Bytes :=
  s.toList.map Char.toNat

/-- `file.readline()` on a byte stream: everything up to and including the
first newline, or the whole stream if the peer closed without one. -/
def readline : Bytes → Bytes
  | [] => []
  | b :: bs => if b = 10 then [10] else b :: readline bs

/-- Whether a byte is ASCII whitespace (as stripped by Python `str.strip`). -/
def isSpaceByte (b : Nat) : Bool :=
  b = 32 || b = 9 || b = 10 || b = 13 || b = 11 || b = 12

/-- Python `.strip()` at the byte level (ASCII whitespace). -/
def stripBytes (bs : Bytes) : Bytes :=
  ((bs.dropWhile isSpaceByte).reverse.dropWhile isSpaceByte).reverse

/-- The temporary directory (`tempfile.gettempdir()`), an opaque root. -/
def TEMP_DIR : String := "tmp"

/-- A local sharable item: a plain file with its contents, or a directory
(whose packed archive bytes are produced externally by
`shutil.make_archive`). -/
inductive ShareItem where
  | sfile (content : Bytes)
  | sdir
deriving DecidableEq

/-- How one outbound send attempt ended. -/
inductive SendOutcome where
  /-- Target nickname absent from the registry (lines 342-344). -/
  | peerNotFound
  /-- Local item absent from the share directory (lines 347-349). -/
  | itemNotFound
  /-- Decision reply was not `ACCEPT`: logged, no payload (lines 378-380). -/
  | rejected
  /-- Payload fully streamed (lines 382-404). -/
  | sent
deriving DecidableEq, Repr

/-- Observable effects of one `send_item` call. -/
structure SendResult where
  /-- Whether a TCP socket to the peer was opened (line 370). -/
  socketOpened : Bool
  /-- The metadata header written on the socket, if any (line 373). -/
  header : Option JVal
  /-- The payload bytes streamed after an `ACCEPT` reply (lines 386-392). -/
  payload : Bytes
  /-- The peer registry after the call: `send_item` only reads it
  (`get_peer_dict`), so it is returned unchanged. -/
  registry : Registry
  outcome : SendOutcome

/-- `send_item` (lines 340-416).  `share` is the contents of `SHARE_DIR`;
`mkArchive item` gives the bytes of the zip archive that
`shutil.make_archive` packs for a directory item; `reply` is the byte stream
the peer sends back after receiving the header (the decision line).
Connection-level failures (timeout, refusal) are not modelled: the claims
under verification concern the pre-connection checks and the decision
handling, which this function covers on the path where the connect and the
socket writes succeed. -/
def send_item (mkArchive : String → Bytes) (self_nickname : String)
    (peers : Registry) (share : List (String × ShareItem)) (peer_nickname : JKey)
    (item_name : String) (reply : Bytes) : SendResult :=
  match getKey peers peer_nickname with
  | none =>
      { socketOpened := false, header := none, payload := [],
        registry := peers, outcome := .peerNotFound }
  | some _ =>
      match getKey share item_name with
      | none =>
          { socketOpened := false, header := none, payload := [],
            registry := peers, outcome := .itemNotFound }
      | some item =>
          let filepath_to_send :=
            match item with
            | .sdir => TEMP_DIR ++ "/" ++ item_name ++ ".zip"
            | .sfile _ => SHARE_DIR ++ "/" ++ item_name
          let content :=
            match item with
            | .sdir => mkArchive item_name
            | .sfile c => c
          let item_type :=
            match item with
            | .sdir => "directory"
            | .sfile _ => "file"
          let metadata : JVal := .jobj
            [("filename", .jstr (basename filepath_to_send)),
             ("filesize", .jnum content.length),
             ("type", .jstr item_type),
             ("sender_nickname", .jstr self_nickname)]
          let response := stripBytes (readline reply)
          if response ≠ asciiBytes "ACCEPT" then
            { socketOpened := true, header := some metadata, payload := [],
              registry := peers, outcome := .rejected }
          else
            { socketOpened := true, header := some metadata, payload := content,
              registry := peers, outcome := .sent }

/-! ## The QR pairing listener (`handle_qr_connection`, lines 475-520) -/

/-- The identity object sent by the QR pairing listener (lines 480-486). -/
def qr_identity (nickname ip : String) : JVal :=
  .jobj [("nickname", .jstr nickname), ("ip", .jstr ip),
         ("device_type", .jstr "desktop"), ("status", .jstr "ready")]

/-- The read loop of `handle_qr_connection` (lines 489-494): accumulate
`recv(1024)` chunks while no newline has arrived and fewer than 4096 bytes
are buffered; stop on an empty read. -/
def qrReadLoop (chunks : List Bytes) (data : Bytes) : Bytes :=
  if (10 : Nat) ∈ data ∨ 4096 ≤ data.length then data
  else
    match chunks with
    | [] => data
    | c :: rest =>
        if c = [] then data
        else
          let chunk := c.take 1024
          let rest' := if c.length ≤ 1024 then rest else c.drop 1024 :: rest
          qrReadLoop rest' (data ++ chunk)
termination_by totalLen chunks + chunks.length
decreasing_by
  simp only [totalLen, List.map_cons, List.sum_cons]
  split <;> simp only [totalLen, List.map_cons, List.sum_cons, List.length_cons,
    List.length_drop] <;> omega

/-- Observable effects of one `handle_qr_connection` call. -/
structure QRResult where
  /-- The identity messages written on the socket, in order. -/
  sent : List JVal
  /-- The peer registry after the call. -/
  registry : Registry

/-- `handle_qr_connection` (lines 475-520): unconditionally send the local
identity object first, then read the peer's identity (bounded by a newline,
4096 bytes, or connection close), parse the whole stripped buffer as JSON,
and, when it is an object with a truthy nickname, pin the peer with a
last-seen timestamp 300 seconds in the future.  A parse failure, a non-object
value (`AttributeError` at `.get`), an unhashable nickname (`TypeError` at
the dict update) or an empty read leave the registry unchanged (the outer
`except` swallows the exception). -/
def handle_qr_connection (self_nickname self_ip addr_ip : String) (now : Int)
    (jdec : Bytes → Option JVal) (peers : Registry) (chunks : List Bytes) :
    QRResult :=
  let our_info := qr_identity self_nickname self_ip
  let data := qrReadLoop chunks []
  if data = [] then { sent := [our_info], registry := peers }
  else
    match jdec (stripBytes data) with
    | some (.jobj fields) =>
        let peer_nickname := (jget fields "nickname").getD .jnull
        let peer_ip := (jget fields "ip").getD (.jstr addr_ip)
        let device_type := (jget fields "device_type").getD (.jstr "android")
        if truthy peer_nickname then
          match toKey peer_nickname with
          | some k =>
              { sent := [our_info]
                registry := setKey peers k
                  { ip := peer_ip, last_seen := now + 300,
                    device_type := device_type, qr_connected := true } }
          | none => { sent := [our_info], registry := peers }
        else { sent := [our_info], registry := peers }
    | _ => { sent := [our_info], registry := peers }

/-! ## Association-list lemmas -/

section AssocLemmas

variable {α β : Type} [DecidableEq α]

theorem getKey_setKey_self (l : List (α × β)) (k : α) (v : β) :
    getKey (setKey l k v) k = some v := by
  induction l with
  | nil => simp [setKey, getKey]
  | cons p rest ih =>
      obtain ⟨k0, v0⟩ := p
      by_cases h : k0 = k
      · simp [setKey, h, getKey]
      · simp [setKey, h, getKey, ih]

theorem getKey_setKey_ne (l : List (α × β)) {k k' : α} (v : β) (h : k' ≠ k) :
    getKey (setKey l k v) k' = getKey l k' := by
  have hkk : k ≠ k' := fun e => h e.symm
  induction l with
  | nil => simp [setKey, getKey, hkk]
  | cons p rest ih =>
      obtain ⟨k0, v0⟩ := p
      by_cases hk : k0 = k
      · subst hk
        simp [setKey, getKey, hkk]
      · simp [setKey, hk, getKey, ih]

theorem setKey_cons_self (k0 : α) (v0 : β) (rest : List (α × β)) (v : β) :
    setKey ((k0, v0) :: rest) k0 v = (k0, v) :: rest := by
  simp [setKey]

theorem getKey_cons_self (k0 : α) (v0 : β) (rest : List (α × β)) :
    getKey ((k0, v0) :: rest) k0 = some v0 := by
  simp [getKey]

theorem mem_keys_setKey {l : List (α × β)} {k a : α} {v : β}
    (h : a ∈ (setKey l k v).map Prod.fst) : a ∈ l.map Prod.fst ∨ a = k := by
  induction l with
  | nil =>
      right
      simpa [setKey] using h
  | cons p rest ih =>
      obtain ⟨k0, v0⟩ := p
      by_cases hk : k0 = k
      · subst hk
        rw [setKey_cons_self, List.map_cons, List.mem_cons] at h
        rcases h with h1 | h1
        · right; exact h1
        · left
          simp only [List.map_cons, List.mem_cons]
          right; exact h1
      · simp only [setKey, if_neg hk, List.map_cons, List.mem_cons] at h
        rcases h with h1 | h1
        · left
          simp [h1]
        · rcases ih h1 with h2 | h2
          · left
            simp only [List.map_cons, List.mem_cons]
            right; exact h2
          · right; exact h2

theorem keys_setKey_nodup {l : List (α × β)} (k : α) (v : β)
    (h : (l.map Prod.fst).Nodup) : ((setKey l k v).map Prod.fst).Nodup := by
  induction l with
  | nil => simp [setKey]
  | cons p rest ih =>
      obtain ⟨k0, v0⟩ := p
      simp only [List.map_cons, List.nodup_cons] at h
      by_cases hk : k0 = k
      · subst hk
        simpa [setKey] using h
      · simp only [setKey, if_neg hk, List.map_cons, List.nodup_cons]
        refine ⟨?_, ih h.2⟩
        intro hmem
        rcases mem_keys_setKey hmem with h2 | h2
        · exact h.1 h2
        · exact hk h2

theorem mem_of_getKey {l : List (α × β)} {k : α} {v : β}
    (h : getKey l k = some v) : (k, v) ∈ l := by
  induction l with
  | nil => simp [getKey] at h
  | cons p rest ih =>
      obtain ⟨k0, v0⟩ := p
      by_cases hk : k0 = k
      · subst hk
        rw [getKey_cons_self] at h
        injection h with hv
        simp [← hv]
      · simp only [getKey, if_neg hk] at h
        exact List.mem_cons_of_mem _ (ih h)

theorem keys_nodup_eq {l : List (α × β)} (h : (l.map Prod.fst).Nodup)
    {k : α} {a b : β} (ha : (k, a) ∈ l) (hb : (k, b) ∈ l) : a = b := by
  induction l with
  | nil => simp at ha
  | cons p rest ih =>
      obtain ⟨k0, v0⟩ := p
      simp only [List.map_cons, List.nodup_cons] at h
      rcases List.mem_cons.mp ha with h1 | h1 <;>
        rcases List.mem_cons.mp hb with h2 | h2
      · obtain ⟨hk1, hv1⟩ := (Prod.mk.injEq k a k0 v0).mp h1
        obtain ⟨hk2, hv2⟩ := (Prod.mk.injEq k b k0 v0).mp h2
        exact hv1.trans hv2.symm
      · obtain ⟨hk1, hv1⟩ := (Prod.mk.injEq k a k0 v0).mp h1
        subst hk1
        exact absurd (List.mem_map_of_mem Prod.fst h2) h.1
      · obtain ⟨hk2, hv2⟩ := (Prod.mk.injEq k b k0 v0).mp h2
        subst hk2
        exact absurd (List.mem_map_of_mem Prod.fst h1) h.1
      · exact ih h.2 h1 h2

theorem getKey_eq_some_of_mem {l : List (α × β)}
    (h : (l.map Prod.fst).Nodup) {k : α} {v : β} (hm : (k, v) ∈ l) :
    getKey l k = some v := by
  induction l with
  | nil => simp at hm
  | cons p rest ih =>
      obtain ⟨k0, v0⟩ := p
      simp only [List.map_cons, List.nodup_cons] at h
      rcases List.mem_cons.mp hm with h1 | h1
      · obtain ⟨hk1, hv1⟩ := (Prod.mk.injEq k v k0 v0).mp h1
        subst hk1
        subst hv1
        simp [getKey]
      · have hk : k0 ≠ k := by
          intro e
          subst e
          exact h.1 (List.mem_map_of_mem Prod.fst h1)
        simp [getKey, hk, ih h.2 h1]

theorem eraseKey_setKey (l : List (α × β)) (k : α) (v : β) :
    eraseKey (setKey l k v) k = eraseKey l k := by
  induction l with
  | nil => simp [setKey, eraseKey]
  | cons p rest ih =>
      obtain ⟨k0, v0⟩ := p
      by_cases hk : k0 = k
      · subst hk
        simp [setKey, eraseKey]
      · simp only [setKey, if_neg hk, eraseKey, List.filter_cons]
        simpa [eraseKey, hk] using ih

theorem getKey_eraseKey_self (l : List (α × β)) (k : α) :
    getKey (eraseKey l k) k = none := by
  induction l with
  | nil => simp [eraseKey, getKey]
  | cons p rest ih =>
      obtain ⟨k0, v0⟩ := p
      by_cases hk : k0 = k
      · subst hk
        simpa [eraseKey, getKey] using ih
      · simpa [eraseKey, getKey, hk] using ih

theorem getKey_filter_of {l : List (α × β)} {k : α} {v : β}
    (q : α × β → Bool) (h : getKey l k = some v) (hq : q (k, v) = true) :
    getKey (l.filter q) k = some v := by
  induction l with
  | nil => simp [getKey] at h
  | cons p rest ih =>
      obtain ⟨k0, v0⟩ := p
      by_cases hk : k0 = k
      · subst hk
        rw [getKey_cons_self] at h
        injection h with hv
        subst hv
        simp [List.filter_cons, hq, getKey]
      · simp only [getKey, if_neg hk] at h
        rcases hv : q (k0, v0) with _ | _
        · simpa [List.filter_cons, hv] using ih h
        · simpa [List.filter_cons, hv, getKey, hk] using ih h

end AssocLemmas

/-! ## Byte-stream lemmas -/

theorem totalLen_nil : totalLen [] = 0 := rfl

theorem totalLen_cons (c : Bytes) (rest : List Bytes) :
    totalLen (c :: rest) = c.length + totalLen rest := by
  simp [totalLen]

theorem totalLen_eq_length_flatten (chunks : List Bytes) :
    totalLen chunks = chunks.flatten.length := by
  induction chunks with
  | nil => rfl
  | cons c rest ih => simp [totalLen_cons, ih]

theorem splitFirstNL_eq_some : ∀ {bs hd rm : Bytes},
    splitFirstNL bs = some (hd, rm) → bs = hd ++ 10 :: rm ∧ (10 : Nat) ∉ hd := by
  intro bs
  induction bs with
  | nil => intro hd rm h; simp [splitFirstNL] at h
  | cons b rest ih =>
      intro hd rm h
      by_cases hb : b = 10
      · subst hb
        simp only [splitFirstNL, reduceIte, Option.some.injEq] at h
        obtain ⟨e1, e2⟩ := (Prod.mk.injEq .. ).mp h
        rw [← e1, ← e2]
        simp
      · simp only [splitFirstNL, if_neg hb] at h
        rcases hsp : splitFirstNL rest with _ | ⟨h1, r1⟩
        · rw [hsp] at h
          simp at h
        · rw [hsp] at h
          simp only [Option.map_some', Option.some.injEq] at h
          obtain ⟨e1, e2⟩ := (Prod.mk.injEq .. ).mp h
          obtain ⟨ihw, ihn⟩ := ih hsp
          rw [← e1, ← e2]
          constructor
          · rw [ihw]
            rfl
          · intro hmem
            rcases List.mem_cons.mp hmem with h2 | h2
            · exact hb h2.symm
            · exact ihn h2

theorem splitFirstNL_eq_none : ∀ {bs : Bytes},
    splitFirstNL bs = none → (10 : Nat) ∉ bs := by
  intro bs
  induction bs with
  | nil => intro h; simp
  | cons b rest ih =>
      intro h
      by_cases hb : b = 10
      · subst hb
        simp [splitFirstNL] at h
      · simp only [splitFirstNL, if_neg hb, Option.map_eq_none'] at h
        intro hmem
        rcases List.mem_cons.mp hmem with h2 | h2
        · exact hb h2.symm
        · exact ih h h2

/-- The metadata loop splits the inbound byte stream at its first newline:
the header is everything before it, and no byte is lost — the remainder of
the stream is exactly `remaining_data` followed by the unread chunks. -/
theorem recvMetaLoop_header :
    ∀ {chunks : List Bytes} {acc hdr rem : Bytes} {rest : List Bytes},
    recvMetaLoop chunks acc = .header hdr rem rest →
    acc ++ chunks.flatten = hdr ++ 10 :: (rem ++ rest.flatten) ∧
      (10 : Nat) ∉ hdr := by
  intro chunks acc
  induction chunks, acc using recvMetaLoop.induct with
  | case1 acc =>
      intro hdr rem rest h
      simp [recvMetaLoop] at h
  | case2 acc rest0 =>
      intro hdr rem rest h
      simp [recvMetaLoop] at h
  | case3 acc c rest0 hc chunk buf hdr0 =>
      rename_i rem0 hsp
      intro hdr rem rest h
      have hsp2 : splitFirstNL (acc ++ List.take 1024 c) = some (hdr0, rem0) := hsp
      rw [recvMetaLoop] at h
      simp only [if_neg hc, hsp2] at h
      injection h with e1 e2 e3
      subst e1; subst e2; subst e3
      obtain ⟨hw, hn⟩ := splitFirstNL_eq_some hsp2
      refine ⟨?_, hn⟩
      by_cases hle : c.length ≤ 1024
      · have hdrop : c.drop 1024 = [] := List.drop_eq_nil_of_le hle
        rw [if_pos hle]
        calc acc ++ (c :: rest0).flatten
            = (acc ++ c.take 1024) ++ (c.drop 1024 ++ rest0.flatten) := by
              conv_rhs => rw [List.append_assoc, ← List.append_assoc (c.take 1024),
                List.take_append_drop]
              rw [List.flatten_cons]
          _ = (hdr0 ++ 10 :: rem0) ++ (c.drop 1024 ++ rest0.flatten) := by rw [hw]
          _ = hdr0 ++ 10 :: (rem0 ++ rest0.flatten) := by
              rw [hdrop]
              simp [List.append_assoc]
      · rw [if_neg hle]
        calc acc ++ (c :: rest0).flatten
            = (acc ++ c.take 1024) ++ (c.drop 1024 ++ rest0.flatten) := by
              conv_rhs => rw [List.append_assoc, ← List.append_assoc (c.take 1024),
                List.take_append_drop]
              rw [List.flatten_cons]
          _ = (hdr0 ++ 10 :: rem0) ++ (c.drop 1024 ++ rest0.flatten) := by rw [hw]
          _ = hdr0 ++ 10 :: (rem0 ++ (c.drop 1024 :: rest0).flatten) := by
              simp [List.append_assoc]
  | case4 acc c rest0 hc chunk rest2 =>
      rename_i buf hsp ih
      intro hdr rem rest h
      have hsp2 : splitFirstNL (acc ++ List.take 1024 c) = none := hsp
      rw [recvMetaLoop] at h
      simp only [if_neg hc, hsp2] at h
      obtain ⟨hw, hn⟩ := ih h
      refine ⟨?_, hn⟩
      rw [← hw]
      show acc ++ (c :: rest0).flatten =
        (acc ++ c.take 1024) ++
          (if _h : c.length ≤ 1024 then rest0 else c.drop 1024 :: rest0).flatten
      by_cases hle : c.length ≤ 1024
      · rw [dif_pos hle, List.take_of_length_le hle, List.flatten_cons,
          List.append_assoc]
      · rw [dif_neg hle]
        conv_rhs => rw [List.flatten_cons, List.append_assoc,
          ← List.append_assoc (c.take 1024), List.take_append_drop]
        rw [List.flatten_cons]

/-- If at most the declared number of bytes is available on the stream (and
no chunk is empty, i.e. the connection does not close before the end of the
stream), the payload loop consumes the whole stream and counts every byte. -/
theorem recvPayload_consume :
    ∀ {filesize : Int} {chunks : List Bytes} {received : Nat},
    (∀ c ∈ chunks, c ≠ []) →
    ((received : Int) + totalLen chunks ≤ filesize) →
    recvPayload filesize chunks received =
      (chunks.flatten, received + totalLen chunks) := by
  intro filesize chunks received
  induction chunks, received using recvPayload.induct filesize with
  | case1 received hlt =>
      intro h1 h2
      rw [recvPayload]
      simp [dif_pos hlt, totalLen]
  | case2 received hlt bound c rest bytes_read hb =>
      intro h1 h2
      exfalso
      have hb1 : 1 ≤ bound := by
        show 1 ≤ (min BUFFER_SIZE (filesize - (received : Int))).toNat
        have h3 : (1 : Int) ≤ min BUFFER_SIZE (filesize - (received : Int)) :=
          le_min (by norm_num [BUFFER_SIZE]) (by omega)
        omega
      have hc : c = [] := by
        rcases List.take_eq_nil_iff.mp hb with h3 | h3
        · exact absurd h3 (by omega)
        · exact h3
      exact h1 c (List.mem_cons_self c rest) hc
  | case3 received hlt bound c rest bytes_read hne rest2 ih =>
      intro h1 h2
      have hlen : bytes_read.length = min bound c.length := List.length_take bound c
      have hne2 : ∀ c2 ∈ rest2, c2 ≠ [] := by
        intro c2 hc2
        by_cases hle : c.length ≤ bound
        · have e : rest2 = rest := dif_pos hle
          rw [e] at hc2
          exact h1 c2 (List.mem_cons_of_mem c hc2)
        · have e : rest2 = c.drop bound :: rest := dif_neg hle
          rw [e] at hc2
          rcases List.mem_cons.mp hc2 with h4 | h4
          · subst h4
            intro hnil
            have h5 := congrArg List.length hnil
            simp only [List.length_drop, List.length_nil] at h5
            omega
          · exact h1 c2 (List.mem_cons_of_mem c h4)
      have hcount : bytes_read.length + totalLen rest2 = totalLen (c :: rest) := by
        by_cases hle : c.length ≤ bound
        · have e : rest2 = rest := dif_pos hle
          have etake : bytes_read = c := by
            show c.take bound = c
            exact List.take_of_length_le hle
          rw [e, etake, totalLen_cons]
        · have e : rest2 = c.drop bound :: rest := dif_neg hle
          rw [e, totalLen_cons, totalLen_cons, hlen, List.length_drop]
          have h6 : min bound c.length = bound := Nat.min_eq_left (by omega)
          omega
      have hflat : bytes_read ++ rest2.flatten = (c :: rest).flatten := by
        by_cases hle : c.length ≤ bound
        · have e : rest2 = rest := dif_pos hle
          have etake : bytes_read = c := by
            show c.take bound = c
            exact List.take_of_length_le hle
          rw [e, etake, List.flatten_cons]
        · have e : rest2 = c.drop bound :: rest := dif_neg hle
          rw [e, List.flatten_cons, List.flatten_cons]
          show c.take bound ++ (c.drop bound ++ rest.flatten) = c ++ rest.flatten
          rw [← List.append_assoc, List.take_append_drop]
      have hrec := ih hne2 (by
        have h7 := hcount
        push_cast at h2 ⊢
        omega)
      rw [recvPayload, dif_pos hlt]
      show (if _hb : bytes_read = [] then (([] : Bytes), received)
        else (bytes_read ++ (recvPayload filesize rest2 (received + bytes_read.length)).1,
          (recvPayload filesize rest2 (received + bytes_read.length)).2)) =
        ((c :: rest).flatten, received + totalLen (c :: rest))
      rw [dif_neg hne, hrec]
      rw [Prod.mk.injEq]
      constructor
      · exact hflat
      · omega
  | case4 chunks received hnlt =>
      intro h1 h2
      have h0 : totalLen chunks = 0 := by omega
      have hf : chunks.flatten = [] := by
        have h8 := totalLen_eq_length_flatten chunks
        rw [h0] at h8
        exact List.length_eq_zero.mp h8.symm
      rw [recvPayload, dif_neg hnlt, hf, h0]
      norm_num

/-- The `received_bytes` counter never decreases in the payload loop. -/
theorem recvPayload_received_le :
    ∀ (filesize : Int) (chunks : List Bytes) (received : Nat),
    received ≤ (recvPayload filesize chunks received).2 := by
  intro filesize chunks received
  induction chunks, received using recvPayload.induct filesize with
  | case1 received hlt =>
      rw [recvPayload]
      simp [dif_pos hlt]
  | case2 received hlt bound c rest bytes_read hb =>
      rw [recvPayload, dif_pos hlt]
      show received ≤ (if _hb : bytes_read = [] then (([] : Bytes), received)
        else (bytes_read ++ (recvPayload filesize
            (if _h : c.length ≤ bound then rest else c.drop bound :: rest)
            (received + bytes_read.length)).1,
          (recvPayload filesize
            (if _h : c.length ≤ bound then rest else c.drop bound :: rest)
            (received + bytes_read.length)).2)).2
      rw [dif_pos hb]
  | case3 received hlt bound c rest bytes_read hne rest2 ih =>
      rw [recvPayload, dif_pos hlt]
      show received ≤ (if _hb : bytes_read = [] then (([] : Bytes), received)
        else (bytes_read ++ (recvPayload filesize rest2 (received + bytes_read.length)).1,
          (recvPayload filesize rest2 (received + bytes_read.length)).2)).2
      rw [dif_neg hne]
      exact le_trans (Nat.le_add_right received bytes_read.length) ih
  | case4 chunks received hnlt =>
      rw [recvPayload, dif_neg hnlt]

/-! ## Handler branch characterizations -/

/-- Projections of `handle_item_receive` in terms of its body. -/
theorem handle_item_receive_toBody (jdec : Bytes → Option JVal)
    (self_nickname self_ip addr_ip : String) (now : Int) (accepted : Bool)
    (peers : Registry) (transfers : TransferTable) (transfer_id : String)
    (chunks : List Bytes) :
    (handle_item_receive jdec self_nickname self_ip addr_ip now accepted peers
        transfers transfer_id chunks).toBodyResult =
      receiveBody jdec self_nickname self_ip addr_ip now accepted peers chunks := rfl

theorem receiveBody_of_header (jdec : Bytes → Option JVal)
    (self_nickname self_ip addr_ip : String) (now : Int) (accepted : Bool)
    (peers : Registry) {chunks : List Bytes} {hdr rem : Bytes} {rest : List Bytes}
    (hmeta : recvMetaLoop chunks [] = .header hdr rem rest) :
    receiveBody jdec self_nickname self_ip addr_ip now accepted peers chunks =
      processMeta jdec self_nickname self_ip addr_ip now accepted peers hdr
        (some (rem, rest)) := by
  unfold receiveBody
  rw [hmeta]

theorem receiveBody_of_closed (jdec : Bytes → Option JVal)
    (self_nickname self_ip addr_ip : String) (now : Int) (accepted : Bool)
    (peers : Registry) {chunks : List Bytes} {acc : Bytes}
    (hmeta : recvMetaLoop chunks [] = .closed acc) (hne : acc ≠ []) :
    receiveBody jdec self_nickname self_ip addr_ip now accepted peers chunks =
      processMeta jdec self_nickname self_ip addr_ip now accepted peers acc
        none := by
  unfold receiveBody
  rw [hmeta]
  cases acc with
  | nil => exact absurd rfl hne
  | cons b bs => rfl

theorem receiveBody_of_closed_nil (jdec : Bytes → Option JVal)
    (self_nickname self_ip addr_ip : String) (now : Int) (accepted : Bool)
    (peers : Registry) {chunks : List Bytes}
    (hmeta : recvMetaLoop chunks [] = .closed []) :
    receiveBody jdec self_nickname self_ip addr_ip now accepted peers chunks =
      { sent := [], dest := "", file := none, written := [], received := 0,
        registry := peers, outcome := .noMetadata } := by
  unfold receiveBody
  rw [hmeta]

theorem processMeta_invalidJson (jdec : Bytes → Option JVal)
    (self_nickname self_ip addr_ip : String) (now : Int) (accepted : Bool)
    (peers : Registry) {metadata_bytes : Bytes}
    (payloadSrc : Option (Bytes × List Bytes))
    (hjson : jdec metadata_bytes = none) :
    processMeta jdec self_nickname self_ip addr_ip now accepted peers
        metadata_bytes payloadSrc =
      { sent := [], dest := "", file := none, written := [], received := 0,
        registry := peers, outcome := .invalidJson } := by
  unfold processMeta
  rw [hjson]

theorem processMeta_reject (jdec : Bytes → Option JVal)
    (self_nickname self_ip addr_ip : String) (now : Int)
    (peers : Registry) {metadata_bytes : Bytes} {fields : List (String × JVal)}
    (payloadSrc : Option (Bytes × List Bytes))
    (hjson : jdec metadata_bytes = some (.jobj fields))
    (hqr : optEqStr (jget fields "type") "qr_handshake" = false)
    {fnv fsv : JVal}
    (hfn : jget fields "filename" = some fnv)
    (hfs : jget fields "filesize" = some fsv) :
    processMeta jdec self_nickname self_ip addr_ip now false peers
        metadata_bytes payloadSrc =
      { sent := [.reject], dest := "", file := none, written := [], received := 0,
        registry := peers, outcome := .rejected } := by
  unfold processMeta
  rw [hjson]
  simp only [hqr, hfn, hfs, Bool.false_eq_true, if_false, if_true]

theorem processMeta_accept_file (jdec : Bytes → Option JVal)
    (self_nickname self_ip addr_ip : String) (now : Int)
    (peers : Registry) {metadata_bytes : Bytes} {fields : List (String × JVal)}
    (hjson : jdec metadata_bytes = some (.jobj fields))
    (hqr : optEqStr (jget fields "type") "qr_handshake" = false)
    {fn : String} {filesize : Int}
    (hfn : jget fields "filename" = some (.jstr fn))
    (hfs : jget fields "filesize" = some (.jnum filesize))
    (rem : Bytes) (rest : List Bytes) :
    processMeta jdec self_nickname self_ip addr_ip now true peers metadata_bytes
        (some (rem, rest)) =
      (if ((recvPayload filesize rest rem.length).2 : Int) = filesize then
        (if ((jget fields "type").getD (.jstr "file")).eqStr "directory" then
          { sent := [.accept], dest := DOWNLOAD_DIR ++ "/" ++ basename fn,
            file := none,
            written := rem ++ (recvPayload filesize rest rem.length).1,
            received := (recvPayload filesize rest rem.length).2,
            registry := peers, outcome := .completed }
        else
          { sent := [.accept], dest := DOWNLOAD_DIR ++ "/" ++ basename fn,
            file := some (rem ++ (recvPayload filesize rest rem.length).1),
            written := rem ++ (recvPayload filesize rest rem.length).1,
            received := (recvPayload filesize rest rem.length).2,
            registry := peers, outcome := .completed })
      else
        { sent := [.accept], dest := DOWNLOAD_DIR ++ "/" ++ basename fn,
          file := none,
          written := rem ++ (recvPayload filesize rest rem.length).1,
          received := (recvPayload filesize rest rem.length).2,
          registry := peers, outcome := .failed }) := by
  unfold processMeta
  rw [hjson]
  simp only [hqr, hfn, hfs, Bool.false_eq_true, if_false, if_true]

theorem processMeta_accept_closed (jdec : Bytes → Option JVal)
    (self_nickname self_ip addr_ip : String) (now : Int)
    (peers : Registry) {metadata_bytes : Bytes} {fields : List (String × JVal)}
    (hjson : jdec metadata_bytes = some (.jobj fields))
    (hqr : optEqStr (jget fields "type") "qr_handshake" = false)
    {fn : String} {filesize : Int}
    (hfn : jget fields "filename" = some (.jstr fn))
    (hfs : jget fields "filesize" = some (.jnum filesize)) :
    processMeta jdec self_nickname self_ip addr_ip now true peers metadata_bytes
        none =
      { sent := [.accept], dest := DOWNLOAD_DIR ++ "/" ++ basename fn,
        file := none, written := [], received := 0,
        registry := peers, outcome := .failed } := by
  unfold processMeta
  rw [hjson]
  simp only [hqr, hfn, hfs, Bool.false_eq_true, if_false, if_true]

/-! ## Registry lemmas -/

/-- A pinned entry survives an eviction sweep (first-occurrence reasoning
plus key uniqueness for the stale list). -/
theorem cleanup_keeps_pinned {peers : Registry}
    (hnd : (peers.map Prod.fst).Nodup) {k : JKey} {info : PeerInfo}
    (hget : getKey peers k = some info) (hpin : info.qr_connected = true)
    (now timeout : Int) :
    getKey (cleanup_stale_peers now timeout peers) k = some info := by
  unfold cleanup_stale_peers
  apply getKey_filter_of _ hget
  simp only [decide_eq_true_eq]
  intro hst
  rcases List.mem_map.mp hst with ⟨p, hp, hpk⟩
  rcases List.mem_filter.mp hp with ⟨hpmem, hpcond⟩
  obtain ⟨k2, i2⟩ := p
  cases hpk
  have h2 : i2 = info := keys_nodup_eq hnd hpmem (mem_of_getKey hget)
  subst h2
  simp [hpin] at hpcond

theorem listen_for_peers_step_nodup (self_nickname : String) (t : Int)
    (ps : Registry) (d : Option JVal) (h : (ps.map Prod.fst).Nodup) :
    ((listen_for_peers_step self_nickname t ps d).map Prod.fst).Nodup := by
  rcases d with _ | v
  · simpa [listen_for_peers_step] using h
  · cases v with
    | jobj fields =>
        simp only [listen_for_peers_step]
        split
        · split
          · split
            · exact keys_setKey_nodup _ _ h
            · exact h
          · exact h
        · exact h
    | jnull => simpa [listen_for_peers_step] using h
    | jbool b => simpa [listen_for_peers_step] using h
    | jnum n => simpa [listen_for_peers_step] using h
    | jstr t2 => simpa [listen_for_peers_step] using h
    | jarr xs => simpa [listen_for_peers_step] using h

theorem listen_for_peers_step_pinned_mono (self_nickname : String) (t : Int)
    (ps : Registry) (d : Option JVal) (nm : JKey)
    (h : isPinned ps nm = true) :
    isPinned (listen_for_peers_step self_nickname t ps d) nm = true := by
  rcases d with _ | v
  · simpa [listen_for_peers_step] using h
  · cases v with
    | jobj fields =>
        simp only [listen_for_peers_step]
        split
        · split
          · split
            · rename_i k hk
              unfold upsert_discovery isPinned
              by_cases hkm : nm = k
              · subst hkm
                rw [getKey_setKey_self]
                simpa [isPinned] using h
              · rw [getKey_setKey_ne _ _ hkm]
                exact h
            · exact h
          · exact h
        · exact h
    | jnull => simpa [listen_for_peers_step] using h
    | jbool b => simpa [listen_for_peers_step] using h
    | jnum n => simpa [listen_for_peers_step] using h
    | jstr t2 => simpa [listen_for_peers_step] using h
    | jarr xs => simpa [listen_for_peers_step] using h

/-! ## Claim theorems -/

/-- C4: a `cleanup_stale_peers` sweep at time `now` with timeout `t` keeps a
registry entry if and only if it is either fresh enough
(`now - last_seen ≤ t`) or QR-connected (pinned); equivalently, an entry is
removed iff `now - last_seen > t` and its pinned flag is false, and a pinned
entry is never removed regardless of its age. -/
theorem cleanup_stale_peers_mem_iff (now timeout : Int) (peers : Registry)
    (hnd : (peers.map Prod.fst).Nodup) (k : JKey) (info : PeerInfo) :
    (k, info) ∈ cleanup_stale_peers now timeout peers ↔
      ((k, info) ∈ peers ∧
        ¬(timeout < now - info.last_seen ∧ info.qr_connected = false)) := by
  unfold cleanup_stale_peers
  simp only [List.mem_filter, decide_eq_true_eq]
  constructor
  · rintro ⟨hmem, hnst⟩
    refine ⟨hmem, ?_⟩
    rintro ⟨h1, h2⟩
    apply hnst
    refine List.mem_map.mpr ⟨(k, info), ?_, rfl⟩
    refine List.mem_filter.mpr ⟨hmem, ?_⟩
    simp [h1, h2]
  · rintro ⟨hmem, hcond⟩
    refine ⟨hmem, ?_⟩
    intro hst
    rcases List.mem_map.mp hst with ⟨p, hp, hpk⟩
    rcases List.mem_filter.mp hp with ⟨hpmem, hpcond⟩
    obtain ⟨k2, i2⟩ := p
    cases hpk
    have h2 : i2 = info := keys_nodup_eq hnd hpmem hmem
    subst h2
    simp only [Bool.and_eq_true, decide_eq_true_eq, Bool.not_eq_true'] at hpcond
    exact hcond ⟨hpcond.1, hpcond.2⟩

theorem cleanup_stale_peers_mem_iff_witness :
    ((JKey.kstr "alice",
      ({ ip := .jstr "10.0.0.7", last_seen := 0, device_type := .jstr "android",
         qr_connected := true } : PeerInfo)) ∈
      cleanup_stale_peers 100 30
        [(JKey.kstr "alice",
          { ip := .jstr "10.0.0.7", last_seen := 0,
            device_type := .jstr "android", qr_connected := true }),
         (JKey.kstr "bob",
          { ip := .jstr "10.0.0.8", last_seen := 0,
            device_type := .jstr "desktop", qr_connected := false })])
  ∧ ¬((JKey.kstr "bob",
      ({ ip := .jstr "10.0.0.8", last_seen := 0, device_type := .jstr "desktop",
         qr_connected := false } : PeerInfo)) ∈
      cleanup_stale_peers 100 30
        [(JKey.kstr "alice",
          { ip := .jstr "10.0.0.7", last_seen := 0,
            device_type := .jstr "android", qr_connected := true }),
         (JKey.kstr "bob",
          { ip := .jstr "10.0.0.8", last_seen := 0,
            device_type := .jstr "desktop", qr_connected := false })]) := by
  constructor
  · exact (cleanup_stale_peers_mem_iff 100 30 _ (by simp) _ _).mpr
      (by refine ⟨by simp, ?_⟩; simp)
  · intro hmem
    have h := (cleanup_stale_peers_mem_iff 100 30 _ (by simp) _ _).mp hmem
    have h2 := h.2
    apply h2
    exact ⟨by norm_num, rfl⟩

/-- C5: under discovery-listener processing the registry keeps at most one
entry per nickname (key uniqueness is preserved by every step); the
discovery upsert overwrites address, last-seen and device-class but carries
over the stored pinned flag (`False` for a new entry); and the pinned flag
is monotone under any sequence of discovery steps: once true it stays
true. -/
theorem discovery_registry_invariants (self_nickname : String)
    (peers : Registry) (nm : JKey) (ip dt : JVal) (now : Int)
    (ds : List (Option JVal × Int)) :
    (((peers.map Prod.fst).Nodup →
      ((ds.foldl
          (fun ps d => listen_for_peers_step self_nickname d.2 ps d.1)
          peers).map Prod.fst).Nodup))
  ∧ (getKey (upsert_discovery peers nm ip dt now) nm =
      some { ip := ip, last_seen := now, device_type := dt,
             qr_connected := isPinned peers nm })
  ∧ (isPinned peers nm = true →
      isPinned
        (ds.foldl (fun ps d => listen_for_peers_step self_nickname d.2 ps d.1)
          peers) nm = true) := by
  refine ⟨?_, ?_, ?_⟩
  · intro h
    induction ds generalizing peers with
    | nil => exact h
    | cons d rest ih =>
        exact ih _ (listen_for_peers_step_nodup self_nickname d.2 peers d.1 h)
  · unfold upsert_discovery
    exact getKey_setKey_self peers nm _
  · intro h
    induction ds generalizing peers with
    | nil => exact h
    | cons d rest ih =>
        exact ih _ (listen_for_peers_step_pinned_mono self_nickname d.2 peers d.1 nm h)

theorem discovery_registry_invariants_witness :
    letI step := fun (ps : Registry) (d : Option JVal × Int) =>
      listen_for_peers_step "me" d.2 ps d.1
    letI d1 : Option JVal := some (.jobj
      [("magic", .jstr BROADCAST_MAGIC), ("nickname", .jstr "alice"),
       ("ip", .jstr "10.0.0.9"), ("device_type", .jstr "desktop")])
    letI peers : Registry :=
      [(JKey.kstr "alice",
        { ip := .jstr "10.0.0.7", last_seen := 0,
          device_type := .jstr "android", qr_connected := true })]
    ((([(d1, 5)].foldl step peers).map Prod.fst).Nodup)
  ∧ (getKey (upsert_discovery peers (JKey.kstr "alice") (.jstr "10.0.0.9")
        (.jstr "desktop") 5) (JKey.kstr "alice") =
      some { ip := .jstr "10.0.0.9", last_seen := 5,
             device_type := .jstr "desktop",
             qr_connected := isPinned peers (JKey.kstr "alice") })
  ∧ (isPinned ([(d1, 5)].foldl step peers) (JKey.kstr "alice") = true) := by
  refine ⟨?_, ?_, ?_⟩
  · exact (discovery_registry_invariants "me" _ (JKey.kstr "alice")
      (.jstr "10.0.0.9") (.jstr "desktop") 5 _).1 (by simp)
  · exact (discovery_registry_invariants "me"
      [(JKey.kstr "alice",
        { ip := .jstr "10.0.0.7", last_seen := 0,
          device_type := .jstr "android", qr_connected := true })]
      (JKey.kstr "alice") (.jstr "10.0.0.9") (.jstr "desktop") 5
      [(some (.jobj
        [("magic", .jstr BROADCAST_MAGIC), ("nickname", .jstr "alice"),
         ("ip", .jstr "10.0.0.9"), ("device_type", .jstr "desktop")]), 5)]).2.1
  · exact (discovery_registry_invariants "me" _ (JKey.kstr "alice")
      (.jstr "10.0.0.9") (.jstr "desktop") 5 _).2.2 (by simp [isPinned, getKey])

/-- C7: the discovery listener drops a datagram — leaving the registry
unchanged — when it is not decodable as JSON, when it is not a JSON object,
when its magic string is wrong, or when it carries the local nickname; a
datagram with the correct magic and a foreign (hashable) nickname performs
exactly the discovery upsert, which installs `qr_connected = false` for a
previously unknown peer. -/
theorem listen_for_peers_step_spec (self_nickname : String) (now : Int)
    (peers : Registry) (d : Option JVal) :
    (d = none → listen_for_peers_step self_nickname now peers d = peers)
  ∧ (∀ v, d = some v → (∀ fields, v ≠ .jobj fields) →
      listen_for_peers_step self_nickname now peers d = peers)
  ∧ (∀ fields, d = some (.jobj fields) →
      optEqStr (jget fields "magic") BROADCAST_MAGIC = false →
      listen_for_peers_step self_nickname now peers d = peers)
  ∧ (∀ fields, d = some (.jobj fields) →
      ((jget fields "nickname").getD .jnull).eqStr self_nickname = true →
      listen_for_peers_step self_nickname now peers d = peers)
  ∧ (∀ fields k, d = some (.jobj fields) →
      optEqStr (jget fields "magic") BROADCAST_MAGIC = true →
      ((jget fields "nickname").getD .jnull).eqStr self_nickname = false →
      toKey ((jget fields "nickname").getD .jnull) = some k →
      (listen_for_peers_step self_nickname now peers d =
        upsert_discovery peers k ((jget fields "ip").getD .jnull)
          ((jget fields "device_type").getD (.jstr "unknown")) now
      ∧ (getKey peers k = none →
          getKey (listen_for_peers_step self_nickname now peers d) k =
            some { ip := (jget fields "ip").getD .jnull, last_seen := now,
                   device_type :=
                     (jget fields "device_type").getD (.jstr "unknown"),
                   qr_connected := false }))) := by
  refine ⟨?_, ?_, ?_, ?_, ?_⟩
  · rintro rfl
    rfl
  · rintro v rfl hno
    cases v with
    | jobj fields => exact absurd rfl (hno fields)
    | jnull => rfl
    | jbool b => rfl
    | jnum n => rfl
    | jstr t2 => rfl
    | jarr xs => rfl
  · rintro fields rfl hmag
    simp [listen_for_peers_step, hmag]
  · rintro fields rfl hself
    simp only [listen_for_peers_step, hself]
    split
    · rfl
    · rfl
  · rintro fields k rfl hmag hself hkey
    have hstep : listen_for_peers_step self_nickname now peers
        (some (.jobj fields)) =
        upsert_discovery peers k ((jget fields "ip").getD .jnull)
          ((jget fields "device_type").getD (.jstr "unknown")) now := by
      simp [listen_for_peers_step, hmag, hself, hkey]
    refine ⟨hstep, ?_⟩
    intro hnone
    rw [hstep]
    unfold upsert_discovery
    rw [getKey_setKey_self]
    simp [isPinned, hnone]

theorem listen_for_peers_step_spec_witness :
    letI d1 : Option JVal := some (.jobj
      [("magic", .jstr BROADCAST_MAGIC), ("nickname", .jstr "alice"),
       ("ip", .jstr "10.0.0.9"), ("device_type", .jstr "desktop")])
    letI bad : Option JVal := some (.jobj [("magic", .jstr "wrong")])
    (listen_for_peers_step "me" 5 [] none = [])
  ∧ (listen_for_peers_step "me" 5 [] bad = [])
  ∧ (getKey (listen_for_peers_step "me" 5 [] d1) (JKey.kstr "alice") =
      some { ip := .jstr "10.0.0.9", last_seen := 5,
             device_type := .jstr "desktop", qr_connected := false }) := by
  refine ⟨?_, ?_, ?_⟩
  · exact (listen_for_peers_step_spec "me" 5 [] none).1 rfl
  · exact (listen_for_peers_step_spec "me" 5 [] _).2.2.1 _ rfl
      (by simp [optEqStr, jget, JVal.eqStr, BROADCAST_MAGIC])
  · exact ((listen_for_peers_step_spec "me" 5 [] _).2.2.2.2 _
      (JKey.kstr "alice") rfl (by simp [optEqStr, jget, JVal.eqStr])
      (by simp [jget, JVal.eqStr]) (by simp [jget, toKey])).2 rfl

/-- C6: sending to a nickname absent from the peer registry fails as
`PeerNotFound` before any socket is opened: no header or payload byte is
written, and the registry (`send_item` only reads it) and the share
directory (never consulted on this path) are unchanged. -/
theorem send_item_peer_not_found (mkArchive : String → Bytes)
    (self_nickname : String) (peers : Registry)
    (share : List (String × ShareItem)) (peer_nickname : JKey)
    (item_name : String) (reply : Bytes)
    (habs : getKey peers peer_nickname = none) :
    send_item mkArchive self_nickname peers share peer_nickname item_name
        reply =
      { socketOpened := false, header := none, payload := [],
        registry := peers, outcome := .peerNotFound } := by
  unfold send_item
  rw [habs]

theorem send_item_peer_not_found_witness :
    send_item (fun _ => []) "me"
        [(JKey.kstr "alice",
          { ip := .jstr "10.0.0.7", last_seen := 0,
            device_type := .jstr "android", qr_connected := true })]
        [("notes.txt", .sfile [1, 2, 3])] (JKey.kstr "bob") "notes.txt"
        (asciiBytes "ACCEPT") =
      { socketOpened := false, header := none, payload := [],
        registry :=
          [(JKey.kstr "alice",
            { ip := .jstr "10.0.0.7", last_seen := 0,
              device_type := .jstr "android", qr_connected := true })],
        outcome := .peerNotFound } := by
  exact send_item_peer_not_found (fun _ => []) "me" _ _ (JKey.kstr "bob")
    "notes.txt" (asciiBytes "ACCEPT") (by simp [getKey])

/-- C10: the sender treats any decision reply whose stripped first line is
not exactly `ACCEPT` — `REJECT`, an empty line from a closed connection, or
any other token — as a rejection: it streams zero payload bytes and returns
normally with a `rejected` outcome (the registry is untouched). -/
theorem send_item_non_accept_is_rejection (mkArchive : String → Bytes)
    (self_nickname : String) (peers : Registry)
    (share : List (String × ShareItem)) (peer_nickname : JKey)
    (item_name : String) (reply : Bytes) {info : PeerInfo} {item : ShareItem}
    (hpeer : getKey peers peer_nickname = some info)
    (hitem : getKey share item_name = some item)
    (hrep : stripBytes (readline reply) ≠ asciiBytes "ACCEPT") :
    (send_item mkArchive self_nickname peers share peer_nickname item_name
        reply).payload = []
  ∧ (send_item mkArchive self_nickname peers share peer_nickname item_name
      reply).outcome = .rejected
  ∧ (send_item mkArchive self_nickname peers share peer_nickname item_name
      reply).socketOpened = true
  ∧ (send_item mkArchive self_nickname peers share peer_nickname item_name
      reply).registry = peers := by
  unfold send_item
  rw [hpeer, hitem]
  cases item <;> simp [hrep]

theorem send_item_non_accept_is_rejection_witness :
    (send_item (fun _ => []) "me"
        [(JKey.kstr "bob",
          { ip := .jstr "10.0.0.8", last_seen := 0,
            device_type := .jstr "desktop", qr_connected := false })]
        [("notes.txt", .sfile [1, 2, 3])] (JKey.kstr "bob") "notes.txt"
        (asciiBytes "REJECT" ++ [10])).payload = []
  ∧ (send_item (fun _ => []) "me"
      [(JKey.kstr "bob",
        { ip := .jstr "10.0.0.8", last_seen := 0,
          device_type := .jstr "desktop", qr_connected := false })]
      [("notes.txt", .sfile [1, 2, 3])] (JKey.kstr "bob") "notes.txt"
      (asciiBytes "REJECT" ++ [10])).outcome = .rejected := by
  have h := send_item_non_accept_is_rejection (fun _ => []) "me"
    [(JKey.kstr "bob",
      { ip := .jstr "10.0.0.8", last_seen := 0,
        device_type := .jstr "desktop", qr_connected := false })]
    [("notes.txt", .sfile [1, 2, 3])] (JKey.kstr "bob") "notes.txt"
    (asciiBytes "REJECT" ++ [10])
    rfl rfl (by decide)
  exact ⟨h.1, h.2.1⟩

/-- C8: the QR pairing listener sends its own identity object first — its
single outgoing message is the identity, written unconditionally, before and
independently of anything the peer sends — and when the peer's (stripped)
reply parses as a JSON object with a truthy, hashable nickname, it upserts
that peer with `qr_connected = true` and a last-seen timestamp 300 seconds
in the future, so the pinned entry survives any eviction sweep. -/
theorem handle_qr_connection_pins (self_nickname self_ip addr_ip : String)
    (now : Int) (jdec : Bytes → Option JVal) (peers : Registry)
    (chunks : List Bytes) :
    (handle_qr_connection self_nickname self_ip addr_ip now jdec peers
        chunks).sent = [qr_identity self_nickname self_ip]
  ∧ (∀ fields k,
      qrReadLoop chunks [] ≠ [] →
      jdec (stripBytes (qrReadLoop chunks [])) = some (.jobj fields) →
      truthy ((jget fields "nickname").getD .jnull) = true →
      toKey ((jget fields "nickname").getD .jnull) = some k →
      (getKey (handle_qr_connection self_nickname self_ip addr_ip now jdec
          peers chunks).registry k =
        some { ip := (jget fields "ip").getD (.jstr addr_ip),
               last_seen := now + 300,
               device_type := (jget fields "device_type").getD (.jstr "android"),
               qr_connected := true }
      ∧ now < now + 300
      ∧ ((peers.map Prod.fst).Nodup → ∀ t timeout : Int,
          getKey (cleanup_stale_peers t timeout
            (handle_qr_connection self_nickname self_ip addr_ip now jdec
              peers chunks).registry) k =
            some { ip := (jget fields "ip").getD (.jstr addr_ip),
                   last_seen := now + 300,
                   device_type :=
                     (jget fields "device_type").getD (.jstr "android"),
                   qr_connected := true }))) := by
  constructor
  · simp only [handle_qr_connection]
    repeat' (first | rfl | split)
  · intro fields k hne hjd htr hk
    have hreg : (handle_qr_connection self_nickname self_ip addr_ip now jdec
        peers chunks).registry =
        setKey peers k
          { ip := (jget fields "ip").getD (.jstr addr_ip),
            last_seen := now + 300,
            device_type := (jget fields "device_type").getD (.jstr "android"),
            qr_connected := true } := by
      simp only [handle_qr_connection]
      rw [if_neg hne, hjd]
      simp [htr, hk]
    have hget : getKey (handle_qr_connection self_nickname self_ip addr_ip now
        jdec peers chunks).registry k =
        some { ip := (jget fields "ip").getD (.jstr addr_ip),
               last_seen := now + 300,
               device_type := (jget fields "device_type").getD (.jstr "android"),
               qr_connected := true } := by
      rw [hreg]
      exact getKey_setKey_self peers k _
    refine ⟨hget, by omega, ?_⟩
    intro hnd t timeout
    apply cleanup_keeps_pinned ?_ hget rfl
    rw [hreg]
    exact keys_setKey_nodup k _ hnd

theorem handle_qr_connection_pins_witness :
    letI flds : List (String × JVal) :=
      [("nickname", .jstr "phone"), ("ip", .jstr "10.0.0.3"),
       ("device_type", .jstr "android")]
    letI jd : Bytes → Option JVal := fun bs =>
      if bs = [104] then some (.jobj
        [("nickname", .jstr "phone"), ("ip", .jstr "10.0.0.3"),
         ("device_type", .jstr "android")]) else none
    ((handle_qr_connection "me" "10.0.0.1" "10.0.0.3" 50 jd [] [[104, 10]]).sent =
      [qr_identity "me" "10.0.0.1"])
  ∧ (getKey (cleanup_stale_peers 1000 30
      (handle_qr_connection "me" "10.0.0.1" "10.0.0.3" 50 jd []
        [[104, 10]]).registry) (JKey.kstr "phone") =
      some { ip := .jstr "10.0.0.3", last_seen := 350,
             device_type := .jstr "android", qr_connected := true }) := by
  have hloop : qrReadLoop [[104, 10]] [] = [104, 10] := by
    rw [qrReadLoop]
    norm_num
    rw [qrReadLoop]
    simp
  have h := handle_qr_connection_pins "me" "10.0.0.1" "10.0.0.3" 50
    (fun bs => if bs = [104] then some (.jobj
      [("nickname", .jstr "phone"), ("ip", .jstr "10.0.0.3"),
       ("device_type", .jstr "android")]) else none) [] [[104, 10]]
  refine ⟨h.1, ?_⟩
  have h2 := h.2
    [("nickname", .jstr "phone"), ("ip", .jstr "10.0.0.3"),
     ("device_type", .jstr "android")] (JKey.kstr "phone")
    (by rw [hloop]; simp)
    (by rw [hloop]; simp [stripBytes, isSpaceByte])
    (by simp [jget, truthy])
    (by simp [jget, toKey])
  have h3 := h2.2.2 (by simp) 1000 30
  have e1 : (jget [("nickname", JVal.jstr "phone"), ("ip", JVal.jstr "10.0.0.3"),
      ("device_type", JVal.jstr "android")] "ip").getD (.jstr "10.0.0.3") =
      .jstr "10.0.0.3" := by simp [jget]
  have e2 : (jget [("nickname", JVal.jstr "phone"), ("ip", JVal.jstr "10.0.0.3"),
      ("device_type", JVal.jstr "android")] "device_type").getD
      (.jstr "android") = .jstr "android" := by simp [jget]
  rw [e1, e2] at h3
  norm_num at h3 ⊢
  exact h3

/-- C9: every inbound transfer connection registers its generated id in the
ActiveTransfer table before the header is read (it is present, with a clear
cancel flag, in the table in force while the connection is serviced), and
the `finally` clause removes it on every exit path, so the final table never
contains the id — and equals the original table with that id removed,
whatever the connection carried and however it ended. -/
theorem active_transfer_lifecycle (jdec : Bytes → Option JVal)
    (self_nickname self_ip addr_ip : String) (now : Int) (accepted : Bool)
    (peers : Registry) (transfers : TransferTable) (transfer_id : String)
    (chunks : List Bytes) :
    getKey (handle_item_receive jdec self_nickname self_ip addr_ip now accepted
        peers transfers transfer_id chunks).duringTable transfer_id =
      some { cancel := false }
  ∧ (handle_item_receive jdec self_nickname self_ip addr_ip now accepted peers
      transfers transfer_id chunks).transfers = eraseKey transfers transfer_id
  ∧ getKey (handle_item_receive jdec self_nickname self_ip addr_ip now accepted
      peers transfers transfer_id chunks).transfers transfer_id = none := by
  refine ⟨?_, ?_, ?_⟩
  · show getKey (setKey transfers transfer_id { cancel := false }) transfer_id =
      some { cancel := false }
    exact getKey_setKey_self transfers transfer_id _
  · show eraseKey (setKey transfers transfer_id { cancel := false })
        transfer_id = eraseKey transfers transfer_id
    exact eraseKey_setKey transfers transfer_id _
  · show getKey (eraseKey (setKey transfers transfer_id { cancel := false })
        transfer_id) transfer_id = none
    exact getKey_eraseKey_self _ transfer_id

/-- C1: for an accepted inbound transfer whose header declares string
filename `fn`, integer filesize `n` and type `file`: the destination path is
the downloads directory joined with the base name of `fn` (path components
stripped); if exactly `n` payload bytes arrive before the connection closes,
the receiver writes exactly those `n` bytes to that path and reports
completion; if fewer than `n` arrive, the partial destination file is
deleted (no file survives) and the transfer is reported as a failure
(`IOError`, transfer incomplete). -/
theorem receive_accepted_transfer (jdec : Bytes → Option JVal)
    (self_nickname self_ip addr_ip : String) (now : Int) (peers : Registry)
    (transfers : TransferTable) (transfer_id : String)
    (chunks rest : List Bytes) (hdr rem : Bytes)
    (fields : List (String × JVal)) (fn : String) (n : Int)
    (hmeta : recvMetaLoop chunks [] = .header hdr rem rest)
    (hjson : jdec hdr = some (.jobj fields))
    (hfn : jget fields "filename" = some (.jstr fn))
    (hfs : jget fields "filesize" = some (.jnum n))
    (hty : jget fields "type" = some (.jstr "file"))
    (hne : ∀ c ∈ rest, c ≠ []) :
    ((handle_item_receive jdec self_nickname self_ip addr_ip now true peers
        transfers transfer_id chunks).dest =
      DOWNLOAD_DIR ++ "/" ++ basename fn)
  ∧ ((rem.length + totalLen rest : Int) = n →
      (handle_item_receive jdec self_nickname self_ip addr_ip now true peers
          transfers transfer_id chunks).outcome = .completed
      ∧ (handle_item_receive jdec self_nickname self_ip addr_ip now true peers
          transfers transfer_id chunks).file = some (rem ++ rest.flatten)
      ∧ (handle_item_receive jdec self_nickname self_ip addr_ip now true peers
          transfers transfer_id chunks).received = rem.length + totalLen rest
      ∧ (handle_item_receive jdec self_nickname self_ip addr_ip now true peers
          transfers transfer_id chunks).sent = [.accept])
  ∧ ((rem.length + totalLen rest : Int) < n →
      (handle_item_receive jdec self_nickname self_ip addr_ip now true peers
          transfers transfer_id chunks).outcome = .failed
      ∧ (handle_item_receive jdec self_nickname self_ip addr_ip now true peers
          transfers transfer_id chunks).file = none
      ∧ (handle_item_receive jdec self_nickname self_ip addr_ip now true peers
          transfers transfer_id chunks).sent = [.accept]) := by
  have hqr : optEqStr (jget fields "type") "qr_handshake" = false := by
    rw [hty]; rfl
  have hdir : ((jget fields "type").getD (.jstr "file")).eqStr "directory" =
      false := by
    rw [hty]; rfl
  have hPM : (handle_item_receive jdec self_nickname self_ip addr_ip now true
      peers transfers transfer_id chunks).toBodyResult =
      processMeta jdec self_nickname self_ip addr_ip now true peers hdr
        (some (rem, rest)) := by
    rw [handle_item_receive_toBody,
      receiveBody_of_header jdec self_nickname self_ip addr_ip now true peers
        hmeta]
  refine ⟨?_, ?_, ?_⟩
  · show (handle_item_receive jdec self_nickname self_ip addr_ip now true peers
        transfers transfer_id chunks).toBodyResult.dest = _
    rw [hPM, processMeta_accept_file jdec self_nickname self_ip addr_ip now
      peers hjson hqr hfn hfs rem rest]
    split
    · split <;> rfl
    · rfl
  · intro hcomp
    have hpay := recvPayload_consume hne
      (show ((rem.length : Int) + totalLen rest ≤ n) by omega)
    have hout : (handle_item_receive jdec self_nickname self_ip addr_ip now
        true peers transfers transfer_id chunks).toBodyResult =
        { sent := [.accept], dest := DOWNLOAD_DIR ++ "/" ++ basename fn,
          file := some (rem ++ rest.flatten),
          written := rem ++ rest.flatten,
          received := rem.length + totalLen rest,
          registry := peers, outcome := .completed } := by
      rw [hPM, processMeta_accept_file jdec self_nickname self_ip addr_ip now
        peers hjson hqr hfn hfs rem rest]
      rw [hpay]
      simp [hcomp, hdir]
    refine ⟨?_, ?_, ?_, ?_⟩
    · show (handle_item_receive jdec self_nickname self_ip addr_ip now true
        peers transfers transfer_id chunks).toBodyResult.outcome = _
      rw [hout]
    · show (handle_item_receive jdec self_nickname self_ip addr_ip now true
        peers transfers transfer_id chunks).toBodyResult.file = _
      rw [hout]
    · show (handle_item_receive jdec self_nickname self_ip addr_ip now true
        peers transfers transfer_id chunks).toBodyResult.received = _
      rw [hout]
    · show (handle_item_receive jdec self_nickname self_ip addr_ip now true
        peers transfers transfer_id chunks).toBodyResult.sent = _
      rw [hout]
  · intro hlt
    have hpay := recvPayload_consume hne
      (show ((rem.length : Int) + totalLen rest ≤ n) by omega)
    have hne2 : ¬((rem.length + totalLen rest : Int) = n) := by omega
    have hout : (handle_item_receive jdec self_nickname self_ip addr_ip now
        true peers transfers transfer_id chunks).toBodyResult =
        { sent := [.accept], dest := DOWNLOAD_DIR ++ "/" ++ basename fn,
          file := none,
          written := rem ++ rest.flatten,
          received := rem.length + totalLen rest,
          registry := peers, outcome := .failed } := by
      rw [hPM, processMeta_accept_file jdec self_nickname self_ip addr_ip now
        peers hjson hqr hfn hfs rem rest]
      rw [hpay]
      simp [hne2]
    refine ⟨?_, ?_, ?_⟩
    · show (handle_item_receive jdec self_nickname self_ip addr_ip now true
        peers transfers transfer_id chunks).toBodyResult.outcome = _
      rw [hout]
    · show (handle_item_receive jdec self_nickname self_ip addr_ip now true
        peers transfers transfer_id chunks).toBodyResult.file = _
      rw [hout]
    · show (handle_item_receive jdec self_nickname self_ip addr_ip now true
        peers transfers transfer_id chunks).toBodyResult.sent = _
      rw [hout]

theorem receive_accepted_transfer_witness :
    letI jd : Bytes → Option JVal := fun bs =>
      if bs = [104] then some (.jobj
        [("filename", .jstr "dir/a.txt"), ("filesize", .jnum 5),
         ("type", .jstr "file")]) else none
    ((handle_item_receive jd "me" "10.0.0.1" "10.0.0.2" 0 true [] [] "t1"
        [[104, 10, 1, 2], [3, 4, 5]]).file = some [1, 2, 3, 4, 5])
  ∧ ((handle_item_receive jd "me" "10.0.0.1" "10.0.0.2" 0 true [] [] "t1"
      [[104, 10, 1, 2], [3, 4, 5]]).outcome = .completed)
  ∧ ((handle_item_receive jd "me" "10.0.0.1" "10.0.0.2" 0 true [] [] "t1"
      [[104, 10, 1, 2], [3, 4, 5]]).dest =
        DOWNLOAD_DIR ++ "/" ++ basename "dir/a.txt")
  ∧ ((handle_item_receive jd "me" "10.0.0.1" "10.0.0.2" 0 true [] [] "t1"
      [[104, 10, 1, 2]]).outcome = .failed)
  ∧ ((handle_item_receive jd "me" "10.0.0.1" "10.0.0.2" 0 true [] [] "t1"
      [[104, 10, 1, 2]]).file = none) := by
  have h := receive_accepted_transfer
    (fun bs => if bs = [104] then some (.jobj
      [("filename", .jstr "dir/a.txt"), ("filesize", .jnum 5),
       ("type", .jstr "file")]) else none)
    "me" "10.0.0.1" "10.0.0.2" 0 [] [] "t1"
    [[104, 10, 1, 2], [3, 4, 5]] [[3, 4, 5]] [104] [1, 2]
    [("filename", .jstr "dir/a.txt"), ("filesize", .jnum 5),
     ("type", .jstr "file")] "dir/a.txt" 5
    (by simp [recvMetaLoop, splitFirstNL]) rfl rfl rfl rfl (by decide)
  have h2 := receive_accepted_transfer
    (fun bs => if bs = [104] then some (.jobj
      [("filename", .jstr "dir/a.txt"), ("filesize", .jnum 5),
       ("type", .jstr "file")]) else none)
    "me" "10.0.0.1" "10.0.0.2" 0 [] [] "t1"
    [[104, 10, 1, 2]] [] [104] [1, 2]
    [("filename", .jstr "dir/a.txt"), ("filesize", .jnum 5),
     ("type", .jstr "file")] "dir/a.txt" 5
    (by simp [recvMetaLoop, splitFirstNL]) rfl rfl rfl rfl (by decide)
  have hc := h.2.1 (by decide)
  have hl := h2.2.2 (by decide)
  exact ⟨hc.2.1.trans (by rfl), hc.1, h.1, hl.1, hl.2.1⟩

/-- C2: when a read delivers the header line concatenated with the start of
the payload, the receiver splits the received bytes at the first newline:
the bytes before it are the header, nothing is discarded (the inbound
stream decomposes exactly as header, newline, trailing bytes, unread
chunks), and on an accepted transfer the trailing bytes are the first bytes
written to the destination file and count toward the received-byte
total. -/
theorem receive_header_payload_split (chunks rest : List Bytes)
    (hdr rem : Bytes)
    (hmeta : recvMetaLoop chunks [] = .header hdr rem rest) :
    (chunks.flatten = hdr ++ 10 :: (rem ++ rest.flatten) ∧ (10 : Nat) ∉ hdr)
  ∧ (∀ (jdec : Bytes → Option JVal) (self_nickname self_ip addr_ip : String)
      (now : Int) (peers : Registry) (transfers : TransferTable)
      (transfer_id : String) (fields : List (String × JVal)) (fn : String)
      (n : Int),
      jdec hdr = some (.jobj fields) →
      optEqStr (jget fields "type") "qr_handshake" = false →
      jget fields "filename" = some (.jstr fn) →
      jget fields "filesize" = some (.jnum n) →
      ((handle_item_receive jdec self_nickname self_ip addr_ip now true peers
          transfers transfer_id chunks).written =
        rem ++ (recvPayload n rest rem.length).1
      ∧ rem <+: (handle_item_receive jdec self_nickname self_ip addr_ip now
          true peers transfers transfer_id chunks).written
      ∧ rem.length ≤ (handle_item_receive jdec self_nickname self_ip addr_ip
          now true peers transfers transfer_id chunks).received)) := by
  have hsplit := recvMetaLoop_header hmeta
  refine ⟨⟨by simpa using hsplit.1, hsplit.2⟩, ?_⟩
  intro jdec self_nickname self_ip addr_ip now peers transfers transfer_id
    fields fn n hjson hqr hfn hfs
  have hPM : (handle_item_receive jdec self_nickname self_ip addr_ip now true
      peers transfers transfer_id chunks).toBodyResult =
      processMeta jdec self_nickname self_ip addr_ip now true peers hdr
        (some (rem, rest)) := by
    rw [handle_item_receive_toBody,
      receiveBody_of_header jdec self_nickname self_ip addr_ip now true peers
        hmeta]
  have hwr : (handle_item_receive jdec self_nickname self_ip addr_ip now true
      peers transfers transfer_id chunks).toBodyResult.written =
      rem ++ (recvPayload n rest rem.length).1 := by
    rw [hPM, processMeta_accept_file jdec self_nickname self_ip addr_ip now
      peers hjson hqr hfn hfs rem rest]
    split
    · split <;> rfl
    · rfl
  have hrc : (handle_item_receive jdec self_nickname self_ip addr_ip now true
      peers transfers transfer_id chunks).toBodyResult.received =
      (recvPayload n rest rem.length).2 := by
    rw [hPM, processMeta_accept_file jdec self_nickname self_ip addr_ip now
      peers hjson hqr hfn hfs rem rest]
    split
    · split <;> rfl
    · rfl
  refine ⟨hwr, ?_, ?_⟩
  · rw [hwr]
    exact ⟨(recvPayload n rest rem.length).1, rfl⟩
  · rw [hrc]
    exact recvPayload_received_le n rest rem.length

theorem receive_header_payload_split_witness :
    letI jd : Bytes → Option JVal := fun bs =>
      if bs = [104] then some (.jobj
        [("filename", .jstr "dir/a.txt"), ("filesize", .jnum 5),
         ("type", .jstr "file")]) else none
    (([[104, 10, 1, 2], [3, 4, 5]] : List Bytes).flatten =
      [104] ++ 10 :: ([1, 2] ++ ([[3, 4, 5]] : List Bytes).flatten))
  ∧ ((10 : Nat) ∉ ([104] : Bytes))
  ∧ ([1, 2] : Bytes) <+:
      (handle_item_receive jd "me" "10.0.0.1" "10.0.0.2" 0 true [] [] "t1"
        [[104, 10, 1, 2], [3, 4, 5]]).written
  ∧ (2 ≤ (handle_item_receive jd "me" "10.0.0.1" "10.0.0.2" 0 true [] [] "t1"
      [[104, 10, 1, 2], [3, 4, 5]]).received) := by
  have h := receive_header_payload_split [[104, 10, 1, 2], [3, 4, 5]]
    [[3, 4, 5]] [104] [1, 2] (by simp [recvMetaLoop, splitFirstNL])
  have h2 := h.2
    (fun bs => if bs = [104] then some (.jobj
      [("filename", .jstr "dir/a.txt"), ("filesize", .jnum 5),
       ("type", .jstr "file")]) else none)
    "me" "10.0.0.1" "10.0.0.2" 0 [] [] "t1"
    [("filename", .jstr "dir/a.txt"), ("filesize", .jnum 5),
     ("type", .jstr "file")] "dir/a.txt" 5 rfl rfl rfl rfl
  exact ⟨h.1.1, h.1.2, h2.2.1, h2.2.2⟩

/-- C3 counterexample: a connection that closes before a newline-terminated
header line has arrived is NOT always abandoned without a reply.  If the
bytes accumulated at close happen to parse as a JSON transfer request, the
receiver solicits a decision and writes a reply on the socket (here
`REJECT`), so reply bytes are written. -/
theorem receive_partial_header_replies :
    letI jd : Bytes → Option JVal := fun bs =>
      if bs = [104] then some (.jobj
        [("filename", .jstr "a"), ("filesize", .jnum 0)]) else none
    (recvMetaLoop [[104]] [] = .closed [104])
  ∧ ((handle_item_receive jd "me" "10.0.0.1" "10.0.0.2" 0 false [] [] "t1"
      [[104]]).sent = [.reject])
  ∧ ((handle_item_receive jd "me" "10.0.0.1" "10.0.0.2" 0 false [] [] "t1"
      [[104]]).sent ≠ []) := by
  have hmeta : recvMetaLoop [[104]] [] = .closed [104] := by
    simp [recvMetaLoop, splitFirstNL]
  have hPM : (handle_item_receive
      (fun bs => if bs = [104] then some (.jobj
        [("filename", .jstr "a"), ("filesize", .jnum 0)]) else none)
      "me" "10.0.0.1" "10.0.0.2" 0 false [] [] "t1" [[104]]).toBodyResult =
      processMeta
        (fun bs => if bs = [104] then some (.jobj
          [("filename", .jstr "a"), ("filesize", .jnum 0)]) else none)
        "me" "10.0.0.1" "10.0.0.2" 0 false [] [104] none := by
    rw [handle_item_receive_toBody,
      receiveBody_of_closed _ "me" "10.0.0.1" "10.0.0.2" 0 false [] hmeta
        (by decide)]
  have hjson : (fun bs => if bs = [104] then some (JVal.jobj
      [("filename", JVal.jstr "a"), ("filesize", JVal.jnum 0)]) else none)
      [104] = some (.jobj [("filename", .jstr "a"), ("filesize", .jnum 0)]) :=
    rfl
  have hsent : (handle_item_receive
      (fun bs => if bs = [104] then some (.jobj
        [("filename", .jstr "a"), ("filesize", .jnum 0)]) else none)
      "me" "10.0.0.1" "10.0.0.2" 0 false [] [] "t1"
      [[104]]).toBodyResult.sent = [.reject] := by
    rw [hPM, @processMeta_reject
      (fun bs => if bs = [104] then some (.jobj
        [("filename", .jstr "a"), ("filesize", .jnum 0)]) else none)
      "me" "10.0.0.1" "10.0.0.2" 0 [] [104]
      [("filename", .jstr "a"), ("filesize", .jnum 0)] none hjson rfl
      (.jstr "a") (.jnum 0) rfl rfl]
  exact ⟨hmeta, hsent, by rw [hsent]; simp⟩

/-- C3 (amended): a connection that closes before any byte arrives, or whose
header bytes (the bytes before the first newline, or all accumulated bytes
if the connection closes without one) fail to parse as JSON, is abandoned
without a reply: no reply bytes are written, no destination path is formed
and no destination file is created.  However, closing before a complete
newline-terminated header is not by itself a protocol error: the bytes
accumulated at close are treated as the header, and if they parse as a JSON
transfer request the receiver does write its accept/reject decision reply —
though no destination file survives in any such case (an accepted transfer
immediately fails and the just-created file is deleted). -/
theorem receive_protocol_error_amended (jdec : Bytes → Option JVal)
    (self_nickname self_ip addr_ip : String) (now : Int) (accepted : Bool)
    (peers : Registry) (transfers : TransferTable) (transfer_id : String)
    (chunks : List Bytes) :
    (recvMetaLoop chunks [] = .closed [] →
      (handle_item_receive jdec self_nickname self_ip addr_ip now accepted
          peers transfers transfer_id chunks).sent = []
      ∧ (handle_item_receive jdec self_nickname self_ip addr_ip now accepted
          peers transfers transfer_id chunks).file = none
      ∧ (handle_item_receive jdec self_nickname self_ip addr_ip now accepted
          peers transfers transfer_id chunks).dest = ""
      ∧ (handle_item_receive jdec self_nickname self_ip addr_ip now accepted
          peers transfers transfer_id chunks).outcome = .noMetadata)
  ∧ (∀ acc, recvMetaLoop chunks [] = .closed acc → acc ≠ [] →
      jdec acc = none →
      (handle_item_receive jdec self_nickname self_ip addr_ip now accepted
          peers transfers transfer_id chunks).sent = []
      ∧ (handle_item_receive jdec self_nickname self_ip addr_ip now accepted
          peers transfers transfer_id chunks).file = none
      ∧ (handle_item_receive jdec self_nickname self_ip addr_ip now accepted
          peers transfers transfer_id chunks).dest = ""
      ∧ (handle_item_receive jdec self_nickname self_ip addr_ip now accepted
          peers transfers transfer_id chunks).outcome = .invalidJson)
  ∧ (∀ hdr rem rest, recvMetaLoop chunks [] = .header hdr rem rest →
      jdec hdr = none →
      (handle_item_receive jdec self_nickname self_ip addr_ip now accepted
          peers transfers transfer_id chunks).sent = []
      ∧ (handle_item_receive jdec self_nickname self_ip addr_ip now accepted
          peers transfers transfer_id chunks).file = none
      ∧ (handle_item_receive jdec self_nickname self_ip addr_ip now accepted
          peers transfers transfer_id chunks).dest = ""
      ∧ (handle_item_receive jdec self_nickname self_ip addr_ip now accepted
          peers transfers transfer_id chunks).outcome = .invalidJson)
  ∧ (∀ acc fields fn n, recvMetaLoop chunks [] = .closed acc → acc ≠ [] →
      jdec acc = some (.jobj fields) →
      optEqStr (jget fields "type") "qr_handshake" = false →
      jget fields "filename" = some (.jstr fn) →
      jget fields "filesize" = some (.jnum n) →
      (handle_item_receive jdec self_nickname self_ip addr_ip now accepted
          peers transfers transfer_id chunks).sent =
        [if accepted then .accept else .reject]
      ∧ (handle_item_receive jdec self_nickname self_ip addr_ip now accepted
          peers transfers transfer_id chunks).file = none) := by
  refine ⟨?_, ?_, ?_, ?_⟩
  · intro hmeta
    have hPM : (handle_item_receive jdec self_nickname self_ip addr_ip now
        accepted peers transfers transfer_id chunks).toBodyResult =
        { sent := [], dest := "", file := none, written := [], received := 0,
          registry := peers, outcome := .noMetadata } := by
      rw [handle_item_receive_toBody,
        receiveBody_of_closed_nil jdec self_nickname self_ip addr_ip now
          accepted peers hmeta]
    exact ⟨by rw [hPM], by rw [hPM], by rw [hPM], by rw [hPM]⟩
  · intro acc hmeta hne hjson
    have hPM : (handle_item_receive jdec self_nickname self_ip addr_ip now
        accepted peers transfers transfer_id chunks).toBodyResult =
        { sent := [], dest := "", file := none, written := [], received := 0,
          registry := peers, outcome := .invalidJson } := by
      rw [handle_item_receive_toBody,
        receiveBody_of_closed jdec self_nickname self_ip addr_ip now accepted
          peers hmeta hne,
        processMeta_invalidJson jdec self_nickname self_ip addr_ip now
          accepted peers none hjson]
    exact ⟨by rw [hPM], by rw [hPM], by rw [hPM], by rw [hPM]⟩
  · intro hdr rem rest hmeta hjson
    have hPM : (handle_item_receive jdec self_nickname self_ip addr_ip now
        accepted peers transfers transfer_id chunks).toBodyResult =
        { sent := [], dest := "", file := none, written := [], received := 0,
          registry := peers, outcome := .invalidJson } := by
      rw [handle_item_receive_toBody,
        receiveBody_of_header jdec self_nickname self_ip addr_ip now accepted
          peers hmeta,
        processMeta_invalidJson jdec self_nickname self_ip addr_ip now
          accepted peers (some (rem, rest)) hjson]
    exact ⟨by rw [hPM], by rw [hPM], by rw [hPM], by rw [hPM]⟩
  · intro acc fields fn n hmeta hne hjson hqr hfn hfs
    have hB : (handle_item_receive jdec self_nickname self_ip addr_ip now
        accepted peers transfers transfer_id chunks).toBodyResult =
        processMeta jdec self_nickname self_ip addr_ip now accepted peers acc
          none := by
      rw [handle_item_receive_toBody,
        receiveBody_of_closed jdec self_nickname self_ip addr_ip now accepted
          peers hmeta hne]
    cases accepted with
    | true =>
        have hPM2 := processMeta_accept_closed jdec self_nickname self_ip
          addr_ip now peers hjson hqr hfn hfs
        exact ⟨by rw [hB, hPM2]; simp, by rw [hB, hPM2]⟩
    | false =>
        have hPM2 := processMeta_reject jdec self_nickname self_ip addr_ip now
          peers none hjson hqr hfn hfs
        exact ⟨by rw [hB, hPM2]; simp, by rw [hB, hPM2]⟩

theorem receive_protocol_error_amended_witness :
    letI jd : Bytes → Option JVal := fun bs =>
      if bs = [104] then some (.jobj
        [("filename", .jstr "a"), ("filesize", .jnum 0)]) else none
    ((handle_item_receive jd "me" "10.0.0.1" "10.0.0.2" 0 true [] [] "t1"
        []).sent = [])
  ∧ ((handle_item_receive jd "me" "10.0.0.1" "10.0.0.2" 0 true [] [] "t1"
      []).outcome = .noMetadata)
  ∧ ((handle_item_receive jd "me" "10.0.0.1" "10.0.0.2" 0 true [] [] "t1"
      [[7, 10]]).sent = [])
  ∧ ((handle_item_receive jd "me" "10.0.0.1" "10.0.0.2" 0 true [] [] "t1"
      [[7, 10]]).outcome = .invalidJson)
  ∧ ((handle_item_receive jd "me" "10.0.0.1" "10.0.0.2" 0 true [] [] "t1"
      [[104]]).sent = [.accept])
  ∧ ((handle_item_receive jd "me" "10.0.0.1" "10.0.0.2" 0 true [] [] "t1"
      [[104]]).file = none) := by
  have h1 := (receive_protocol_error_amended
    (fun bs => if bs = [104] then some (.jobj
      [("filename", .jstr "a"), ("filesize", .jnum 0)]) else none)
    "me" "10.0.0.1" "10.0.0.2" 0 true [] [] "t1" []).1
    (by rw [recvMetaLoop])
  have h2 := (receive_protocol_error_amended
    (fun bs => if bs = [104] then some (.jobj
      [("filename", .jstr "a"), ("filesize", .jnum 0)]) else none)
    "me" "10.0.0.1" "10.0.0.2" 0 true [] [] "t1" [[7, 10]]).2.2.1
    [7] [] [] (by simp [recvMetaLoop, splitFirstNL]) rfl
  have h3 := (receive_protocol_error_amended
    (fun bs => if bs = [104] then some (.jobj
      [("filename", .jstr "a"), ("filesize", .jnum 0)]) else none)
    "me" "10.0.0.1" "10.0.0.2" 0 true [] [] "t1" [[104]]).2.2.2
    [104] [("filename", .jstr "a"), ("filesize", .jnum 0)] "a" 0
    (by simp [recvMetaLoop, splitFirstNL]) (by decide) rfl rfl rfl rfl
  exact ⟨h1.1, h1.2.2.2, h2.1, h2.2.2.2, h3.1, h3.2⟩

end VITShare
